import Mathlib

set_option maxHeartbeats 1000000

/-!
Verification of the addr-hal address library.

The library is generic over storage backends (the `Ipv4Address`, `Ipv6Address`,
`SocketAddressV4`, `SocketAddressV6` capability traits); every classification,
conversion and formatting routine reads the address back through `octets()` /
`segments()` accessors.  We instantiate the capability with the faithful
array backend shipped in the repository (`addr-mock`): `new` stores exactly its
arguments and `octets` / `segments` return them unchanged.  Octets are `u8`
values and segments are `u16` values, modelled as `Nat` together with a `valid`
bound where the width matters.
-/

namespace AddrHal

/-- An IPv4 address over the faithful four-octet backend: one field per octet
of `Ipv4Address::new(a, b, c, d)`. -/
structure Ipv4Addr where
  o0 : Nat
  o1 : Nat
  o2 : Nat
  o3 : Nat
deriving DecidableEq

/-- The four octets, as returned by `Ipv4Addr::octets` under the mock backend. -/
def Ipv4Addr.octets (a : Ipv4Addr) : List Nat := [a.o0, a.o1, a.o2, a.o3]

/-- Octets are in the `u8` range. -/
def Ipv4Addr.valid (a : Ipv4Addr) : Prop :=
  a.o0 < 256 ∧ a.o1 < 256 ∧ a.o2 < 256 ∧ a.o3 < 256

instance (a : Ipv4Addr) : Decidable a.valid := by unfold Ipv4Addr.valid; infer_instance

/-- The `BROADCAST` constant 255.255.255.255. -/
def Ipv4Addr.BROADCAST : Ipv4Addr := ⟨255, 255, 255, 255⟩

/-- The `LOCALHOST` constant 127.0.0.1. -/
def Ipv4Addr.LOCALHOST : Ipv4Addr := ⟨127, 0, 0, 1⟩

/-- The `UNSPECIFIED` constant 0.0.0.0. -/
def Ipv4Addr.UNSPECIFIED : Ipv4Addr := ⟨0, 0, 0, 0⟩

/-- `Ipv4Addr::is_benchmarking`: `octets[0] == 198 && (octets[1] & 0xfe) == 18`. -/
def Ipv4Addr.is_benchmarking (a : Ipv4Addr) : Bool :=
  a.o0 == 198 && (a.o1 &&& 0xfe) == 18

/-- `Ipv4Addr::is_broadcast`: equality with the `BROADCAST` constant. -/
def Ipv4Addr.is_broadcast (a : Ipv4Addr) : Bool :=
  a == Ipv4Addr.BROADCAST

/-- `Ipv4Addr::is_documentation`: the three TEST-NET `/24` blocks. -/
def Ipv4Addr.is_documentation (a : Ipv4Addr) : Bool :=
  (a.o0 == 192 && a.o1 == 0 && a.o2 == 2) ||
  (a.o0 == 198 && a.o1 == 51 && a.o2 == 100) ||
  (a.o0 == 203 && a.o1 == 0 && a.o2 == 113)

/-- `Ipv4Addr::is_ietf_protocol_assignment`: the `192.0.0.0/24` block. -/
def Ipv4Addr.is_ietf_protocol_assignment (a : Ipv4Addr) : Bool :=
  a.o0 == 192 && a.o1 == 0 && a.o2 == 0

/-- `Ipv4Addr::is_link_local`: the `169.254.0.0/16` block. -/
def Ipv4Addr.is_link_local (a : Ipv4Addr) : Bool :=
  a.o0 == 169 && a.o1 == 254

/-- `Ipv4Addr::is_loopback`: `octets[0] == 127`. -/
def Ipv4Addr.is_loopback (a : Ipv4Addr) : Bool :=
  a.o0 == 127

/-- `Ipv4Addr::is_multicast`: first octet in `224..=239`. -/
def Ipv4Addr.is_multicast (a : Ipv4Addr) : Bool :=
  a.o0 ≥ 224 && a.o0 ≤ 239

/-- `Ipv4Addr::is_private`: the three RFC 1918 blocks, as the source's match. -/
def Ipv4Addr.is_private (a : Ipv4Addr) : Bool :=
  (a.o0 == 10) ||
  (a.o0 == 172 && a.o1 ≥ 16 && a.o1 ≤ 31) ||
  (a.o0 == 192 && a.o1 == 168)

/-- `Ipv4Addr::is_reserved`: `octets[0] & 240 == 240` excluding broadcast. -/
def Ipv4Addr.is_reserved (a : Ipv4Addr) : Bool :=
  (a.o0 &&& 240) == 240 && !a.is_broadcast

/-- `Ipv4Addr::is_shared`: `100.64.0.0/10`. -/
def Ipv4Addr.is_shared (a : Ipv4Addr) : Bool :=
  a.o0 == 100 && (a.o1 &&& 0b11000000) == 0b01000000

/-- `Ipv4Addr::is_unspecified`: equality with `UNSPECIFIED`. -/
def Ipv4Addr.is_unspecified (a : Ipv4Addr) : Bool :=
  a == Ipv4Addr.UNSPECIFIED

/-- `Ipv4Addr::is_global`: the source first matches the two exceptional `/32`s
`192.0.0.9` and `192.0.0.10`, and only otherwise evaluates the general
conjunction of negated predicates with a nonzero first octet. -/
def Ipv4Addr.is_global (a : Ipv4Addr) : Bool :=
  if a.octets = [192, 0, 0, 9] ∨ a.octets = [192, 0, 0, 10] then
    true
  else
    !a.is_private && !a.is_loopback && !a.is_link_local && !a.is_broadcast &&
      !a.is_documentation && !a.is_shared && !a.is_ietf_protocol_assignment &&
      !a.is_reserved && !a.is_benchmarking && a.o0 != 0

/-- An IPv6 address over the faithful eight-segment backend: one field per
16-bit segment of `Ipv6Address::new(a, ..., h)`. -/
structure Ipv6Addr where
  s0 : Nat
  s1 : Nat
  s2 : Nat
  s3 : Nat
  s4 : Nat
  s5 : Nat
  s6 : Nat
  s7 : Nat
deriving DecidableEq

/-- The eight segments, as returned by `Ipv6Addr::segments` under the mock
backend. -/
def Ipv6Addr.segments (a : Ipv6Addr) : List Nat :=
  [a.s0, a.s1, a.s2, a.s3, a.s4, a.s5, a.s6, a.s7]

/-- Segments are in the `u16` range. -/
def Ipv6Addr.valid (a : Ipv6Addr) : Prop :=
  a.s0 < 65536 ∧ a.s1 < 65536 ∧ a.s2 < 65536 ∧ a.s3 < 65536 ∧
  a.s4 < 65536 ∧ a.s5 < 65536 ∧ a.s6 < 65536 ∧ a.s7 < 65536

instance (a : Ipv6Addr) : Decidable a.valid := by unfold Ipv6Addr.valid; infer_instance

/-- The multicast scope enumeration from `ipv6.rs`. -/
inductive Ipv6MulticastScope where
  | InterfaceLocal
  | LinkLocal
  | RealmLocal
  | AdminLocal
  | SiteLocal
  | OrganizationLocal
  | Global
deriving DecidableEq

/-- `Ipv6Addr::is_multicast`: `segments[0] & 0xff00 == 0xff00`. -/
def Ipv6Addr.is_multicast (a : Ipv6Addr) : Bool :=
  (a.s0 &&& 0xff00) == 0xff00

/-- `Ipv6Addr::multicast_scope`: when multicast, dispatch on the low nibble
`segments[0] & 0x000f` through the source's match arms, in order. -/
def Ipv6Addr.multicast_scope (a : Ipv6Addr) : Option Ipv6MulticastScope :=
  if a.is_multicast then
    if a.s0 &&& 0x000f = 1 then some .InterfaceLocal
    else if a.s0 &&& 0x000f = 2 then some .LinkLocal
    else if a.s0 &&& 0x000f = 3 then some .RealmLocal
    else if a.s0 &&& 0x000f = 4 then some .AdminLocal
    else if a.s0 &&& 0x000f = 5 then some .SiteLocal
    else if a.s0 &&& 0x000f = 8 then some .OrganizationLocal
    else if a.s0 &&& 0x000f = 14 then some .Global
    else none
  else
    none

/-- `Ipv6Addr::to_ipv4`: defined exactly when segments 0-4 are zero and
segment 5 is `0` or `0xffff`; the octets are the bytes of segments 6 and 7
(`(g >> 8) as u8`, `g as u8`, `(h >> 8) as u8`, `h as u8`). -/
def Ipv6Addr.to_ipv4 (a : Ipv6Addr) : Option Ipv4Addr :=
  if a.s0 = 0 ∧ a.s1 = 0 ∧ a.s2 = 0 ∧ a.s3 = 0 ∧ a.s4 = 0 ∧
      (a.s5 = 0 ∨ a.s5 = 0xffff) then
    some ⟨(a.s6 >>> 8) % 256, a.s6 % 256, (a.s7 >>> 8) % 256, a.s7 % 256⟩
  else
    none

/-- `Ipv6Addr::octets`: the big-endian byte serialization, each segment split
via `u16::to_be_bytes`. -/
def Ipv6Addr.octets (a : Ipv6Addr) : List Nat :=
  [a.s0 / 256 % 256, a.s0 % 256, a.s1 / 256 % 256, a.s1 % 256,
   a.s2 / 256 % 256, a.s2 % 256, a.s3 / 256 % 256, a.s3 % 256,
   a.s4 / 256 % 256, a.s4 % 256, a.s5 / 256 % 256, a.s5 % 256,
   a.s6 / 256 % 256, a.s6 % 256, a.s7 / 256 % 256, a.s7 % 256]

/-- `From<[u8; 16]> for Ipv6Addr`: adjacent bytes are paired big-endian via
`u16::from_be_bytes`. -/
def Ipv6Addr.from_octets16 (b0 b1 b2 b3 b4 b5 b6 b7 b8 b9 b10 b11 b12 b13 b14 b15 : Nat) :
    Ipv6Addr :=
  ⟨b0 * 256 + b1, b2 * 256 + b3, b4 * 256 + b5, b6 * 256 + b7,
   b8 * 256 + b9, b10 * 256 + b11, b12 * 256 + b13, b14 * 256 + b15⟩

/-- `Ipv4Addr::to_ipv6_compatible`: `a.b.c.d` becomes `::a.b.c.d`. -/
def Ipv4Addr.to_ipv6_compatible (a : Ipv4Addr) : Ipv6Addr :=
  Ipv6Addr.from_octets16 0 0 0 0 0 0 0 0 0 0 0 0 a.o0 a.o1 a.o2 a.o3

/-- `Ipv4Addr::to_ipv6_mapped`: `a.b.c.d` becomes `::ffff:a.b.c.d`. -/
def Ipv4Addr.to_ipv6_mapped (a : Ipv4Addr) : Ipv6Addr :=
  Ipv6Addr.from_octets16 0 0 0 0 0 0 0 0 0 0 0xFF 0xFF a.o0 a.o1 a.o2 a.o3

/-- Big-endian recomposition of a byte list, as in `u32::from_be_bytes` and
`u128::from_be_bytes`. -/
def fromBeBytes (bytes : List Nat) : Nat :=
  bytes.foldl (fun acc b => acc * 256 + b) 0

/-- `From<Ipv4Addr> for u32`: `u32::from_be_bytes(ip.octets())`. -/
def u32FromIpv4 (a : Ipv4Addr) : Nat :=
  fromBeBytes a.octets

/-- `From<u32> for Ipv4Addr`: `Ipv4Addr::from(ip.to_be_bytes())`. -/
def ipv4FromU32 (n : Nat) : Ipv4Addr :=
  ⟨n / 2 ^ 24 % 256, n / 2 ^ 16 % 256, n / 2 ^ 8 % 256, n % 256⟩

/-- `From<Ipv6Addr> for u128`: `u128::from_be_bytes(ip.octets())`. -/
def u128FromIpv6 (a : Ipv6Addr) : Nat :=
  fromBeBytes a.octets

/-- `From<u128> for Ipv6Addr`: `to_be_bytes` then `From<[u8; 16]>`. -/
def ipv6FromU128 (n : Nat) : Ipv6Addr :=
  ⟨(n / 2 ^ 120 % 256) * 256 + n / 2 ^ 112 % 256,
   (n / 2 ^ 104 % 256) * 256 + n / 2 ^ 96 % 256,
   (n / 2 ^ 88 % 256) * 256 + n / 2 ^ 80 % 256,
   (n / 2 ^ 72 % 256) * 256 + n / 2 ^ 64 % 256,
   (n / 2 ^ 56 % 256) * 256 + n / 2 ^ 48 % 256,
   (n / 2 ^ 40 % 256) * 256 + n / 2 ^ 32 % 256,
   (n / 2 ^ 24 % 256) * 256 + n / 2 ^ 16 % 256,
   (n / 2 ^ 8 % 256) * 256 + n % 256⟩

/-- The `IpAddr` tagged union. -/
inductive IpAddr where
  | V4 (a : Ipv4Addr)
  | V6 (a : Ipv6Addr)
deriving DecidableEq

/-- Lexicographic comparison of two equal-length `Nat` lists, as the derived
`Ord` of the mock backend's octet and segment arrays. -/
def cmpList : List Nat → List Nat → Ordering
  | [], [] => .eq
  | [], _ :: _ => .lt
  | _ :: _, [] => .gt
  | x :: xs, y :: ys =>
    match compare x y with
    | .eq => cmpList xs ys
    | o => o

/-- `Ord for Ipv4Addr`: comparison of the backend values, i.e. the octets. -/
def Ipv4Addr.cmp (x y : Ipv4Addr) : Ordering := cmpList x.octets y.octets

/-- `Ord for Ipv6Addr`: `self.segments().cmp(&other.segments())`. -/
def Ipv6Addr.cmp (x y : Ipv6Addr) : Ordering := cmpList x.segments y.segments

/-- The derived `Ord for IpAddr`: variant tag first (`V4` before `V6`), then
the payload. -/
def IpAddr.cmp : IpAddr → IpAddr → Ordering
  | .V4 x, .V4 y => x.cmp y
  | .V4 _, .V6 _ => .lt
  | .V6 _, .V4 _ => .gt
  | .V6 x, .V6 y => x.cmp y

/-- The strict order on `IpAddr` induced by the derived `Ord`. -/
def IpAddr.lt (x y : IpAddr) : Prop := x.cmp y = .lt

/-- `PartialOrd<Ipv4Addr> for IpAddr`: a `V6` value is `Greater` than any bare
IPv4 address. -/
def IpAddr.partial_cmp_v4 : IpAddr → Ipv4Addr → Option Ordering
  | .V4 x, y => some (x.cmp y)
  | .V6 _, _ => some .gt

/-- `PartialOrd<IpAddr> for Ipv4Addr`: a bare IPv4 address is `Less` than any
`V6` value. -/
def Ipv4Addr.partial_cmp_ip : Ipv4Addr → IpAddr → Option Ordering
  | x, .V4 y => some (x.cmp y)
  | _, .V6 _ => some .lt

/-- `PartialOrd<Ipv6Addr> for IpAddr`: a `V4` value is `Less` than any bare
IPv6 address. -/
def IpAddr.partial_cmp_v6 : IpAddr → Ipv6Addr → Option Ordering
  | .V4 _, _ => some .lt
  | .V6 x, y => some (x.cmp y)

/-- A `SocketAddrV4` over the faithful backend: an address plus a port. -/
structure SocketAddrV4 where
  ip : Ipv4Addr
  port : Nat
deriving DecidableEq

/-- A `SocketAddrV6` over the faithful backend: an address, a port, the
`flowinfo` field and the `scope_id` field. -/
structure SocketAddrV6 where
  ip : Ipv6Addr
  port : Nat
  flowinfo : Nat
  scope_id : Nat
deriving DecidableEq

/-- `SocketAddrV4::set_ip`: wholesale replacement of the address field. -/
def SocketAddrV4.set_ip (s : SocketAddrV4) (newIp : Ipv4Addr) : SocketAddrV4 :=
  { s with ip := newIp }

/-- `SocketAddrV6::set_ip`: wholesale replacement of the address field,
keeping port, flowinfo and scope_id. -/
def SocketAddrV6.set_ip (s : SocketAddrV6) (newIp : Ipv6Addr) : SocketAddrV6 :=
  { s with ip := newIp }

/-- The `SocketAddr` tagged union. -/
inductive SocketAddr where
  | V4 (s : SocketAddrV4)
  | V6 (s : SocketAddrV6)
deriving DecidableEq

/-- `SocketAddr::new`: a `V4` address builds a `SocketAddrV4`, a `V6` address
builds a `SocketAddrV6` with flowinfo 0 and scope_id 0. -/
def SocketAddr.new : IpAddr → Nat → SocketAddr
  | .V4 a, p => .V4 ⟨a, p⟩
  | .V6 a, p => .V6 ⟨a, p, 0, 0⟩

/-- `SocketAddr::ip`. -/
def SocketAddr.ip : SocketAddr → IpAddr
  | .V4 s => .V4 s.ip
  | .V6 s => .V6 s.ip

/-- `SocketAddr::port`. -/
def SocketAddr.port : SocketAddr → Nat
  | .V4 s => s.port
  | .V6 s => s.port

/-- `SocketAddr::set_ip`: same-family updates mutate the variant in place;
a cross-family update rebuilds the socket via `Self::new(new_ip, self.port())`. -/
def SocketAddr.set_ip : SocketAddr → IpAddr → SocketAddr
  | .V4 s, .V4 a => .V4 (s.set_ip a)
  | .V6 s, .V6 a => .V6 (s.set_ip a)
  | s, newIp => SocketAddr.new newIp s.port

/-- Lowercase hexadecimal rendering of a number, as the `{:x}` format. -/
def toHex (n : Nat) : String := (Nat.toDigits 16 n).asString

/-- `Display for Ipv4Addr`: dotted decimal `{}.{}.{}.{}` over the octets. -/
def ipv4Display (a : Ipv4Addr) : String :=
  Nat.repr a.o0 ++ "." ++ Nat.repr a.o1 ++ "." ++ Nat.repr a.o2 ++ "." ++ Nat.repr a.o3

/-- The embedded IPv4 tail of the interop arms of `Display for Ipv6Addr`:
`{}.{}.{}.{}` over the byte halves of segments 6 and 7. -/
def dottedOf (g h : Nat) : String :=
  Nat.repr ((g >>> 8) % 256) ++ "." ++ Nat.repr (g % 256) ++ "." ++
    Nat.repr ((h >>> 8) % 256) ++ "." ++ Nat.repr (h % 256)

/-- The loop state of `find_zero_slice`, extended with the loop counter `i`. -/
structure FZState where
  i : Nat
  longestLen : Nat
  longestAt : Nat
  curLen : Nat
  curAt : Nat
deriving DecidableEq

/-- One iteration of the `find_zero_slice` loop on a segment value. -/
def fzStep (st : FZState) (seg : Nat) : FZState :=
  if seg == 0 then
    let curAt := if st.curLen == 0 then st.i else st.curAt
    let curLen := st.curLen + 1
    if curLen > st.longestLen then
      ⟨st.i + 1, curLen, curAt, curLen, curAt⟩
    else
      ⟨st.i + 1, st.longestLen, st.longestAt, curLen, curAt⟩
  else
    ⟨st.i + 1, st.longestLen, st.longestAt, 0, 0⟩

/-- One iteration of the `find_zero_slice` loop, abstracted over the boolean
test `segments[i] == 0`. -/
def fzStepB (st : FZState) (isZero : Bool) : FZState :=
  if isZero then
    let curAt := if st.curLen == 0 then st.i else st.curAt
    let curLen := st.curLen + 1
    if curLen > st.longestLen then
      ⟨st.i + 1, curLen, curAt, curLen, curAt⟩
    else
      ⟨st.i + 1, st.longestLen, st.longestAt, curLen, curAt⟩
  else
    ⟨st.i + 1, st.longestLen, st.longestAt, 0, 0⟩

/-- `find_zero_slice` from `Display for Ipv6Addr`: a single pass that tracks
the current zero span and the longest span seen so far, returning
`(longest_span_at, longest_span_len)`. -/
def findZeroSlice (segs : List Nat) : Nat × Nat :=
  let st := segs.foldl fzStep ⟨0, 0, 0, 0, 0⟩
  (st.longestAt, st.longestLen)

/-- The boolean-pattern version of `find_zero_slice`. -/
def findZeroSliceB (pattern : List Bool) : Nat × Nat :=
  let st := pattern.foldl fzStepB ⟨0, 0, 0, 0, 0⟩
  (st.longestAt, st.longestLen)

/-- `fmt_subslice` from `Display for Ipv6Addr`: first segment in hex, then
`:{:x}` for each following segment; empty output on an empty slice. -/
def fmtSubslice (l : List Nat) : String :=
  match l with
  | [] => ""
  | x :: xs => xs.foldl (fun acc seg => acc ++ ":" ++ toHex seg) (toHex x)

/-- `Display for Ipv6Addr`: the source's match arms in order, then the
zero-run compression of the general case. -/
def displayIpv6 (a : Ipv6Addr) : String :=
  if a.segments = [0, 0, 0, 0, 0, 0, 0, 0] then "::"
  else if a.segments = [0, 0, 0, 0, 0, 0, 0, 1] then "::1"
  else if a.s0 = 0 ∧ a.s1 = 0 ∧ a.s2 = 0 ∧ a.s3 = 0 ∧ a.s4 = 0 ∧ a.s5 = 0 then
    "::" ++ dottedOf a.s6 a.s7
  else if a.s0 = 0 ∧ a.s1 = 0 ∧ a.s2 = 0 ∧ a.s3 = 0 ∧ a.s4 = 0 ∧ a.s5 = 0xffff then
    "::ffff:" ++ dottedOf a.s6 a.s7
  else
    if (findZeroSlice a.segments).2 > 1 then
      fmtSubslice (a.segments.take (findZeroSlice a.segments).1) ++ "::" ++
        fmtSubslice (a.segments.drop ((findZeroSlice a.segments).1 + (findZeroSlice a.segments).2))
    else
      toHex a.s0 ++ ":" ++ toHex a.s1 ++ ":" ++ toHex a.s2 ++ ":" ++ toHex a.s3 ++ ":" ++
        toHex a.s4 ++ ":" ++ toHex a.s5 ++ ":" ++ toHex a.s6 ++ ":" ++ toHex a.s7

/-- `Display for IpAddr`: delegation to the active variant. -/
def ipDisplay : IpAddr → String
  | .V4 a => ipv4Display a
  | .V6 a => displayIpv6 a

/-- `Display for SocketAddrV4`: `{}:{}` over ip and port. -/
def socketAddrV4Display (s : SocketAddrV4) : String :=
  ipv4Display s.ip ++ ":" ++ Nat.repr s.port

/-- `Display for SocketAddrV6`: `[{}]:{}` over ip and port. -/
def socketAddrV6Display (s : SocketAddrV6) : String :=
  "[" ++ displayIpv6 s.ip ++ "]:" ++ Nat.repr s.port

/-- `Display for SocketAddr` as written in `socket.rs`: `{}:{}` over
`self.ip()` and `self.port()`, for both variants. -/
def socketAddrDisplay (s : SocketAddr) : String :=
  ipDisplay s.ip ++ ":" ++ Nat.repr s.port

/-- Length of the leading run of `true` in a boolean pattern. -/
def leadRun : List Bool → Nat
  | [] => 0
  | b :: rest => if b then leadRun rest + 1 else 0

/-- The spec's zero-run selection on a boolean pattern: among all starting
positions, the longest run of consecutive `true`s, ties broken by the
earliest position; `(0, 0)` when there is no `true` at all. -/
def specRunB (pattern : List Bool) : Nat × Nat :=
  (List.range pattern.length).foldl
    (fun best i =>
      let len := leadRun (pattern.drop i)
      if best.2 < len then (i, len) else best)
    (0, 0)

/-- The spec's zero-run selection on segments: the longest run of consecutive
zero segments, ties broken by the earliest occurrence. -/
def specRun (segs : List Nat) : Nat × Nat :=
  specRunB (segs.map (fun x => x == 0))

/-- Segments joined by `:`, as in the spec's description of the rendering. -/
def specJoin : List String → String
  | [] => ""
  | [x] => x
  | x :: xs => x ++ ":" ++ specJoin xs

/-- The spec's description of the general-case IPv6 rendering: compute the
longest zero run with earliest tie-break; when its length is at least 2,
replace the run by `::` and render the remaining segments in lowercase hex
joined by `:`; otherwise render all eight segments with no compression. -/
def specRender (segs : List Nat) : String :=
  if (specRun segs).2 > 1 then
    specJoin ((segs.take (specRun segs).1).map toHex) ++ "::" ++
      specJoin ((segs.drop ((specRun segs).1 + (specRun segs).2)).map toHex)
  else
    specJoin (segs.map toHex)

/-- The spec's multicast-scope table on the low nibble of segment 0, written
as `low nibble = segment 0 mod 16`. -/
def scopeOfNibble (n : Nat) : Option Ipv6MulticastScope :=
  if n = 1 then some .InterfaceLocal
  else if n = 2 then some .LinkLocal
  else if n = 3 then some .RealmLocal
  else if n = 4 then some .AdminLocal
  else if n = 5 then some .SiteLocal
  else if n = 8 then some .OrganizationLocal
  else if n = 14 then some .Global
  else none

/-- Helper for relating `fmt_subslice` to the spec's join: the rendering of a
tail, each segment preceded by `:`. -/
def joinTail : List Nat → String
  | [] => ""
  | x :: xs => ":" ++ toHex x ++ joinTail xs

/-- The spec's description of `to_ipv4`: defined exactly when segments 0-4
vanish and segment 5 is `0` or `0xffff`, producing the high and low bytes of
segments 6 and 7. -/
def toIpv4Spec (a : Ipv6Addr) : Option Ipv4Addr :=
  if a.s0 = 0 ∧ a.s1 = 0 ∧ a.s2 = 0 ∧ a.s3 = 0 ∧ a.s4 = 0 ∧
      (a.s5 = 0 ∨ a.s5 = 0xffff) then
    some ⟨a.s6 / 256, a.s6 % 256, a.s7 / 256, a.s7 % 256⟩
  else
    none

/-- The spec's description of `is_global` for IPv4: the two exceptional
`/32`s are global outright; every other address is global exactly when none
of the nine excluded classes holds and the first octet is nonzero. -/
def globalSpec (a : Ipv4Addr) : Prop :=
  a.octets = [192, 0, 0, 9] ∨ a.octets = [192, 0, 0, 10] ∨
    (a.is_private = false ∧ a.is_loopback = false ∧ a.is_link_local = false ∧
     a.is_broadcast = false ∧ a.is_documentation = false ∧ a.is_shared = false ∧
     a.is_ietf_protocol_assignment = false ∧ a.is_reserved = false ∧
     a.is_benchmarking = false ∧ a.o0 ≠ 0)

theorem and_fifteen_eq_mod (n : Nat) : n &&& 15 = n % 16 := by
  have h := Nat.and_pow_two_sub_one_eq_mod n 4
  norm_num at h
  exact h

theorem foldl_fzStep (l : List Nat) (st : FZState) :
    l.foldl fzStep st = (l.map (fun x => x == 0)).foldl fzStepB st := by
  induction l generalizing st with
  | nil => rfl
  | cons x xs ih => simpa [List.foldl] using ih (fzStep st x)

theorem findZeroSlice_eq_b (l : List Nat) :
    findZeroSlice l = findZeroSliceB (l.map (fun x => x == 0)) := by
  unfold findZeroSlice findZeroSliceB
  rw [foldl_fzStep]

theorem findZeroSliceB_spec :
    ∀ b0 b1 b2 b3 b4 b5 b6 b7 : Bool,
      findZeroSliceB [b0, b1, b2, b3, b4, b5, b6, b7] =
        specRunB [b0, b1, b2, b3, b4, b5, b6, b7] := by
  decide

theorem foldl_joinTail (xs : List Nat) (acc : String) :
    xs.foldl (fun acc seg => acc ++ ":" ++ toHex seg) acc = acc ++ joinTail xs := by
  induction xs generalizing acc with
  | nil => simp [joinTail]
  | cons x xs ih =>
    rw [List.foldl_cons, ih]
    simp [joinTail, String.append_assoc]

theorem specJoin_toHex_cons (x : Nat) (xs : List Nat) :
    specJoin ((x :: xs).map toHex) = toHex x ++ joinTail xs := by
  induction xs generalizing x with
  | nil => simp [specJoin, joinTail]
  | cons y ys ih =>
    have h := ih y
    simp only [List.map_cons] at h ⊢
    rw [show specJoin (toHex x :: toHex y :: List.map toHex ys) =
          toHex x ++ ":" ++ specJoin (toHex y :: List.map toHex ys) from rfl, h]
    simp [joinTail, String.append_assoc]

theorem fmtSubslice_eq_specJoin (l : List Nat) :
    fmtSubslice l = specJoin (l.map toHex) := by
  cases l with
  | nil => rfl
  | cons x xs => rw [fmtSubslice, foldl_joinTail, specJoin_toHex_cons]

/-- C1: formatting `SocketAddr::V4` with Display yields dotted decimal, a
colon and the decimal port, as claimed; but formatting `SocketAddr::V6` with
Display yields the bare IPv6 address followed by a colon and the port, with
no square brackets — `SocketAddr::new(IpAddr::V6(::1), 8080)` renders
`"::1:8080"`, not the claimed `"[::1]:8080"`; only `SocketAddrV6`'s own
Display is bracketed. -/
theorem socketAddrDisplay_bracket_divergence :
    socketAddrDisplay (SocketAddr.new (IpAddr.V4 ⟨127, 0, 0, 1⟩) 8080) = "127.0.0.1:8080" ∧
    socketAddrDisplay (SocketAddr.new (IpAddr.V6 ⟨0, 0, 0, 0, 0, 0, 0, 1⟩) 8080) = "::1:8080" ∧
    socketAddrDisplay (SocketAddr.new (IpAddr.V6 ⟨0, 0, 0, 0, 0, 0, 0, 1⟩) 8080) ≠
      "[::1]:8080" ∧
    socketAddrV6Display ⟨⟨0, 0, 0, 0, 0, 0, 0, 1⟩, 8080, 0, 0⟩ = "[::1]:8080" := by
  refine ⟨by decide, by decide, by decide, by decide⟩

/-- C2: `Ipv4Addr::is_global` holds exactly as the spec's override-order rule
states: true outright at `192.0.0.9` and `192.0.0.10`, and otherwise true iff
none of the nine excluded classifications holds and the first octet is
nonzero; the two exceptional addresses are globally routable even though
`is_ietf_protocol_assignment` holds for them. -/
theorem ipv4_is_global_override_spec :
    (∀ a : Ipv4Addr, a.is_global = true ↔ globalSpec a) ∧
    Ipv4Addr.is_ietf_protocol_assignment ⟨192, 0, 0, 9⟩ = true ∧
    Ipv4Addr.is_global ⟨192, 0, 0, 9⟩ = true ∧
    Ipv4Addr.is_ietf_protocol_assignment ⟨192, 0, 0, 10⟩ = true ∧
    Ipv4Addr.is_global ⟨192, 0, 0, 10⟩ = true := by
  refine ⟨?_, by decide, by decide, by decide, by decide⟩
  intro a
  unfold Ipv4Addr.is_global globalSpec
  by_cases h : a.octets = [192, 0, 0, 9] ∨ a.octets = [192, 0, 0, 10]
  · rw [if_pos h]
    simp only [true_iff]
    tauto
  · rw [if_neg h]
    push_neg at h
    obtain ⟨h1, h2⟩ := h
    simp only [h1, h2, false_or, Bool.and_eq_true, Bool.not_eq_true', bne_iff_ne, ne_eq,
      and_assoc]

/-- C4: `Ipv6Addr::multicast_scope` returns a scope exactly when the address
is multicast and the low nibble of segment 0 is in the seven-entry table, and
returns `None` exactly when the address is not multicast or the nibble is
unmapped. -/
theorem ipv6_multicast_scope_spec :
    (∀ (a : Ipv6Addr) (sc : Ipv6MulticastScope),
        a.multicast_scope = some sc ↔
          a.is_multicast = true ∧ scopeOfNibble (a.s0 % 16) = some sc) ∧
    (∀ a : Ipv6Addr,
        a.multicast_scope = none ↔
          a.is_multicast = false ∨ scopeOfNibble (a.s0 % 16) = none) := by
  have key : ∀ a : Ipv6Addr,
      a.multicast_scope = if a.is_multicast then scopeOfNibble (a.s0 % 16) else none := by
    intro a
    unfold Ipv6Addr.multicast_scope scopeOfNibble
    rw [and_fifteen_eq_mod]
  constructor
  · intro a sc
    rw [key a]
    by_cases h : a.is_multicast = true
    · simp [h]
    · simp [h]
  · intro a
    rw [key a]
    by_cases h : a.is_multicast = true
    · simp [h]
    · simp [Bool.not_eq_true] at h
      simp [h]

/-- C5: under valid `u16` segments, `Ipv6Addr::to_ipv4` returns `Some` exactly
when segments 0-4 are zero and segment 5 is `0` or `0xffff`, with the IPv4
octets being the high and low bytes of segments 6 and 7, and returns `None`
in every other case. -/
theorem ipv6_to_ipv4_spec (a : Ipv6Addr) (hv : a.valid) : a.to_ipv4 = toIpv4Spec a := by
  obtain ⟨_, _, _, _, _, _, h6, h7⟩ := hv
  unfold Ipv6Addr.to_ipv4 toIpv4Spec
  by_cases h : a.s0 = 0 ∧ a.s1 = 0 ∧ a.s2 = 0 ∧ a.s3 = 0 ∧ a.s4 = 0 ∧
      (a.s5 = 0 ∨ a.s5 = 0xffff)
  · rw [if_pos h, if_pos h]
    have e6 : a.s6 >>> 8 % 256 = a.s6 / 256 := by
      rw [Nat.shiftRight_eq_div_pow]
      norm_num
      omega
    have e7 : a.s7 >>> 8 % 256 = a.s7 / 256 := by
      rw [Nat.shiftRight_eq_div_pow]
      norm_num
      omega
    rw [e6, e7]
  · rw [if_neg h, if_neg h]

/-- Witness for C5 at the IPv4-mapped address `::ffff:192.10.2.255`. -/
theorem ipv6_to_ipv4_spec_witness :
    Ipv6Addr.valid ⟨0, 0, 0, 0, 0, 0xffff, 0xc00a, 0x2ff⟩ ∧
      Ipv6Addr.to_ipv4 ⟨0, 0, 0, 0, 0, 0xffff, 0xc00a, 0x2ff⟩ =
        toIpv4Spec ⟨0, 0, 0, 0, 0, 0xffff, 0xc00a, 0x2ff⟩ :=
  ⟨by decide, ipv6_to_ipv4_spec ⟨0, 0, 0, 0, 0, 0xffff, 0xc00a, 0x2ff⟩ (by decide)⟩

/-- C6: `SocketAddr::set_ip` with a cross-family address replaces the whole
socket address by `SocketAddr::new(new_ip, self.port())`, so afterwards `ip()`
is the new address and `port()` is the old port, in both directions. -/
theorem socket_set_ip_cross_family :
    (∀ (s : SocketAddrV4) (b : Ipv6Addr),
        (SocketAddr.V4 s).set_ip (IpAddr.V6 b) = SocketAddr.new (IpAddr.V6 b) s.port ∧
        ((SocketAddr.V4 s).set_ip (IpAddr.V6 b)).ip = IpAddr.V6 b ∧
        ((SocketAddr.V4 s).set_ip (IpAddr.V6 b)).port = (SocketAddr.V4 s).port) ∧
    (∀ (s : SocketAddrV6) (b : Ipv4Addr),
        (SocketAddr.V6 s).set_ip (IpAddr.V4 b) = SocketAddr.new (IpAddr.V4 b) s.port ∧
        ((SocketAddr.V6 s).set_ip (IpAddr.V4 b)).ip = IpAddr.V4 b ∧
        ((SocketAddr.V6 s).set_ip (IpAddr.V4 b)).port = (SocketAddr.V6 s).port) :=
  ⟨fun _ _ => ⟨rfl, rfl, rfl⟩, fun _ _ => ⟨rfl, rfl, rfl⟩⟩

/-- C8: under the derived ordering, every `IpAddr::V4` value is strictly less
than every `IpAddr::V6` value, and the mixed-type partial comparisons agree:
a `V6` value is `Greater` than any bare IPv4 address, a bare IPv4 address is
`Less` than any `V6` value, and a `V4` value is `Less` than any bare IPv6
address, independent of the bit patterns. -/
theorem ip_addr_v4_sorts_before_v6 :
    (∀ (a : Ipv4Addr) (b : Ipv6Addr), IpAddr.lt (IpAddr.V4 a) (IpAddr.V6 b)) ∧
    (∀ (b : Ipv6Addr) (x : Ipv4Addr), (IpAddr.V6 b).partial_cmp_v4 x = some .gt) ∧
    (∀ (x : Ipv4Addr) (b : Ipv6Addr), x.partial_cmp_ip (IpAddr.V6 b) = some .lt) ∧
    (∀ (a : Ipv4Addr) (y : Ipv6Addr), (IpAddr.V4 a).partial_cmp_v6 y = some .lt) :=
  ⟨fun _ _ => rfl, fun _ _ => rfl, fun _ _ => rfl, fun _ _ => rfl⟩

/-- C9: `SocketAddr::new` with a `V6` address always constructs the socket
with flowinfo 0 and scope_id 0, and therefore a cross-family `set_ip` of a
`V6` address into a `V4` socket yields flowinfo 0 and scope_id 0 regardless
of prior state. -/
theorem socket_new_v6_zero_flow_scope :
    (∀ (b : Ipv6Addr) (p : Nat),
        SocketAddr.new (IpAddr.V6 b) p =
          SocketAddr.V6 { ip := b, port := p, flowinfo := 0, scope_id := 0 }) ∧
    (∀ (s : SocketAddrV4) (b : Ipv6Addr),
        (SocketAddr.V4 s).set_ip (IpAddr.V6 b) =
          SocketAddr.V6 { ip := b, port := s.port, flowinfo := 0, scope_id := 0 }) :=
  ⟨fun _ _ => rfl, fun _ _ => rfl⟩

/-- C3: for every IPv6 address outside the special-cased forms (all-zero,
loopback, IPv4-compatible, IPv4-mapped), Display renders exactly as the spec
describes: the longest run of consecutive zero segments with earliest
tie-break is compressed to `::` when its length is at least 2, the remaining
segments rendered in lowercase hex joined by `:`, and no compression happens
otherwise; in particular `[0,0,0,0,1,0,0,1]` renders as `"::1:0:0:1"`. -/
theorem ipv6_display_zero_run_compression :
    (∀ a : Ipv6Addr,
        a.segments ≠ [0, 0, 0, 0, 0, 0, 0, 0] →
        a.segments ≠ [0, 0, 0, 0, 0, 0, 0, 1] →
        ¬(a.s0 = 0 ∧ a.s1 = 0 ∧ a.s2 = 0 ∧ a.s3 = 0 ∧ a.s4 = 0 ∧
            (a.s5 = 0 ∨ a.s5 = 0xffff)) →
        displayIpv6 a = specRender a.segments) ∧
    displayIpv6 ⟨0, 0, 0, 0, 1, 0, 0, 1⟩ = "::1:0:0:1" := by
  constructor
  · intro a h1 h2 h3
    have c3 : ¬(a.s0 = 0 ∧ a.s1 = 0 ∧ a.s2 = 0 ∧ a.s3 = 0 ∧ a.s4 = 0 ∧ a.s5 = 0) := by
      intro hx
      exact h3 ⟨hx.1, hx.2.1, hx.2.2.1, hx.2.2.2.1, hx.2.2.2.2.1, Or.inl hx.2.2.2.2.2⟩
    have c4 : ¬(a.s0 = 0 ∧ a.s1 = 0 ∧ a.s2 = 0 ∧ a.s3 = 0 ∧ a.s4 = 0 ∧ a.s5 = 0xffff) := by
      intro hx
      exact h3 ⟨hx.1, hx.2.1, hx.2.2.1, hx.2.2.2.1, hx.2.2.2.2.1, Or.inr hx.2.2.2.2.2⟩
    have hrun : findZeroSlice a.segments = specRun a.segments := by
      rw [findZeroSlice_eq_b]
      unfold specRun Ipv6Addr.segments
      simp only [List.map_cons, List.map_nil]
      exact findZeroSliceB_spec (a.s0 == 0) (a.s1 == 0) (a.s2 == 0) (a.s3 == 0)
        (a.s4 == 0) (a.s5 == 0) (a.s6 == 0) (a.s7 == 0)
    unfold displayIpv6 specRender
    rw [if_neg h1, if_neg h2, if_neg c3, if_neg c4, hrun]
    by_cases hz : (specRun a.segments).2 > 1
    · rw [if_pos hz, if_pos hz, fmtSubslice_eq_specJoin, fmtSubslice_eq_specJoin]
    · rw [if_neg hz, if_neg hz]
      unfold Ipv6Addr.segments
      simp [specJoin, String.append_assoc]
  · decide

/-- Witness for C3 at the tie-break example `[0,0,0,0,1,0,0,1]`. -/
theorem ipv6_display_zero_run_compression_witness :
    Ipv6Addr.segments ⟨0, 0, 0, 0, 1, 0, 0, 1⟩ ≠ [0, 0, 0, 0, 0, 0, 0, 0] ∧
    Ipv6Addr.segments ⟨0, 0, 0, 0, 1, 0, 0, 1⟩ ≠ [0, 0, 0, 0, 0, 0, 0, 1] ∧
    displayIpv6 ⟨0, 0, 0, 0, 1, 0, 0, 1⟩ =
      specRender (Ipv6Addr.segments ⟨0, 0, 0, 0, 1, 0, 0, 1⟩) :=
  ⟨by decide, by decide,
    ipv6_display_zero_run_compression.1 ⟨0, 0, 0, 0, 1, 0, 0, 1⟩
      (by decide) (by decide) (by decide)⟩

/-- C7: under valid octets and segments, the integer conversions round-trip:
`Ipv4Addr::from(u32::from(x)) == x` and `Ipv6Addr::from(u128::from(x)) == x`,
where the integer forms are the big-endian byte packings. -/
theorem int_conversion_roundtrip :
    (∀ a : Ipv4Addr, a.valid → ipv4FromU32 (u32FromIpv4 a) = a) ∧
    (∀ a : Ipv6Addr, a.valid → ipv6FromU128 (u128FromIpv6 a) = a) := by
  constructor
  · intro a hv
    obtain ⟨o0, o1, o2, o3⟩ := a
    simp only [Ipv4Addr.valid] at hv
    obtain ⟨h0, h1, h2, h3⟩ := hv
    unfold ipv4FromU32 u32FromIpv4 fromBeBytes Ipv4Addr.octets
    simp only [List.foldl, Ipv4Addr.mk.injEq]
    norm_num
    omega
  · intro a hv
    obtain ⟨s0, s1, s2, s3, s4, s5, s6, s7⟩ := a
    simp only [Ipv6Addr.valid] at hv
    obtain ⟨h0, h1, h2, h3, h4, h5, h6, h7⟩ := hv
    unfold ipv6FromU128 u128FromIpv6 fromBeBytes Ipv6Addr.octets
    simp only [List.foldl, Ipv6Addr.mk.injEq]
    norm_num
    omega

/-- Witness for C7 at `13.12.11.10` and `1020:3040:5060:7080:90a0:b0c0:d0e0:f00d`. -/
theorem int_conversion_roundtrip_witness :
    Ipv4Addr.valid ⟨13, 12, 11, 10⟩ ∧
    ipv4FromU32 (u32FromIpv4 ⟨13, 12, 11, 10⟩) = ⟨13, 12, 11, 10⟩ ∧
    Ipv6Addr.valid ⟨0x1020, 0x3040, 0x5060, 0x7080, 0x90A0, 0xB0C0, 0xD0E0, 0xF00D⟩ ∧
    ipv6FromU128 (u128FromIpv6 ⟨0x1020, 0x3040, 0x5060, 0x7080, 0x90A0, 0xB0C0, 0xD0E0, 0xF00D⟩) =
      ⟨0x1020, 0x3040, 0x5060, 0x7080, 0x90A0, 0xB0C0, 0xD0E0, 0xF00D⟩ :=
  ⟨by decide, int_conversion_roundtrip.1 ⟨13, 12, 11, 10⟩ (by decide), by decide,
    int_conversion_roundtrip.2
      ⟨0x1020, 0x3040, 0x5060, 0x7080, 0x90A0, 0xB0C0, 0xD0E0, 0xF00D⟩ (by decide)⟩

/-- C10: under valid octets, embedding an IPv4 address as an IPv4-mapped or
IPv4-compatible IPv6 address and converting back with `to_ipv4` is the
identity. -/
theorem ipv4_embed_roundtrip (a : Ipv4Addr) (hv : a.valid) :
    a.to_ipv6_mapped.to_ipv4 = some a ∧ a.to_ipv6_compatible.to_ipv4 = some a := by
  obtain ⟨o0, o1, o2, o3⟩ := a
  simp only [Ipv4Addr.valid] at hv
  obtain ⟨h0, h1, h2, h3⟩ := hv
  constructor
  · unfold Ipv4Addr.to_ipv6_mapped Ipv6Addr.from_octets16 Ipv6Addr.to_ipv4
    rw [if_pos (by norm_num)]
    simp only [Option.some.injEq, Ipv4Addr.mk.injEq, Nat.shiftRight_eq_div_pow]
    norm_num
    omega
  · unfold Ipv4Addr.to_ipv6_compatible Ipv6Addr.from_octets16 Ipv6Addr.to_ipv4
    rw [if_pos (by norm_num)]
    simp only [Option.some.injEq, Ipv4Addr.mk.injEq, Nat.shiftRight_eq_div_pow]
    norm_num
    omega

/-- Witness for C10 at `192.0.2.255`. -/
theorem ipv4_embed_roundtrip_witness :
    Ipv4Addr.valid ⟨192, 0, 2, 255⟩ ∧
    (Ipv4Addr.to_ipv6_mapped ⟨192, 0, 2, 255⟩).to_ipv4 = some ⟨192, 0, 2, 255⟩ ∧
    (Ipv4Addr.to_ipv6_compatible ⟨192, 0, 2, 255⟩).to_ipv4 = some ⟨192, 0, 2, 255⟩ :=
  ⟨by decide, (ipv4_embed_roundtrip ⟨192, 0, 2, 255⟩ (by decide)).1,
    (ipv4_embed_roundtrip ⟨192, 0, 2, 255⟩ (by decide)).2⟩

end AddrHal
